import Mathlib

/-!
# Verification of the MIT-JOS user-level spawn / IPC / monitor code

Shallow embedding of the repository's C sources:
* `src/lab4/lib/ipc.c` and `src/unnamed/part_001` (the lab-5 copy of
  `lib/ipc.c`): `ipc_recv`, `ipc_send`;
* `src/unnamed/part_000` (the lab-5 `lib/spawn.c`): `spawn`, `init_stack`;
* `src/lab5/kern/monitor.c`: `runcmd`, `mon_showmappings`, `mon_free_page`.

C pointers are modelled as numbers (`0` is the C `NULL`).  Substrate system
calls (`sys_page_alloc`, `sys_page_map`, ..., file I/O) are modelled by
oracles for their return values together with an explicit event trace.
-/

set_option autoImplicit false

/-- Modelled from the spec: page size of the platform (one stack / mapping
page); the numeric constant lives in `inc/mmu.h`, which is not under `src/`. -/
def PGSIZE : Nat := 4096

/-- Modelled from the spec: the parent-local scratch virtual address `UTEMP`
at which spawn/init_stack temporarily map pages; the numeric constant lives
in `inc/memlayout.h`, which is not under `src/`.  Only its page alignment and
position below `USTACKTOP` matter for the claims. -/
def UTEMP : Nat := 0x400000

/-- Modelled from the spec: top of the user-accessible address space, used by
the IPC routines as the dedicated non-zero "no page" sentinel
(`inc/memlayout.h`, not under `src/`). -/
def UTOP : Nat := 0xeec00000

/-- Modelled from the spec: top of the child's initial user stack
(`inc/memlayout.h`, not under `src/`); the child stack page is mapped at
`USTACKTOP - PGSIZE`. -/
def USTACKTOP : Nat := 0xeebfe000

/-- Modelled from the spec: page-table permission bit "present"
(`inc/mmu.h`, not under `src/`). -/
def PTE_P : Nat := 1

/-- Modelled from the spec: page-table permission bit "writable"
(`inc/mmu.h`, not under `src/`). -/
def PTE_W : Nat := 2

/-- Modelled from the spec: page-table permission bit "user"
(`inc/mmu.h`, not under `src/`). -/
def PTE_U : Nat := 4

/-- Modelled from the spec: the executable-format magic number `ELF_MAGIC`
("\x7FELF" read as a little-endian word, `inc/elf.h`, not under `src/`). -/
def ELF_MAGIC : Nat := 0x464C457F

/-- Modelled from the spec: error code "invalid argument / invalid
executable" (`inc/error.h`, not under `src/`).  Only distinctness of the
error codes matters for the claims, not the numeric values. -/
def E_INVAL : Int := 3

/-- Modelled from the spec: error code "out of memory" (`inc/error.h`). -/
def E_NO_MEM : Int := 4

/-- Modelled from the spec: error code "target environment is not currently
blocked in `sys_ipc_recv`" (`inc/error.h`). -/
def E_IPC_NOT_RECV : Int := 7

/-! ## IPC channel (`lib/ipc.c`)

Two copies of `ipc_recv` exist in the repository: `src/lab4/lib/ipc.c` and
`src/unnamed/part_001` (the lab-5 copy).  They differ in the branch choosing
the address passed to `sys_ipc_recv`, so both branches are embedded. -/

/-- The address passed to `sys_ipc_recv` by the lab-4 `ipc_recv`
(`src/lab4/lib/ipc.c` lines 22–25):
`if (pg != NULL) err = sys_ipc_recv((void *)UTOP); else err = sys_ipc_recv(pg);`
(`pg = 0` models the C `NULL` pointer). -/
def ipc_recv_slot_lab4 (pg : Nat) : Nat :=
  if pg ≠ 0 then UTOP else pg

/-- The address passed to `sys_ipc_recv` by the lab-5 `ipc_recv`
(`src/unnamed/part_001` lines 22–25):
`if (pg == NULL) err = sys_ipc_recv((void *)UTOP); else err = sys_ipc_recv(pg);`. -/
def ipc_recv_slot (pg : Nat) : Nat :=
  if pg = 0 then UTOP else pg

/-- Mailbox fields of the caller's environment read back by `ipc_recv`
after a successful `sys_ipc_recv` (spec §3 "IPC Mailbox"). -/
structure IpcEnv where
  ipc_from : Nat
  ipc_perm : Nat
  ipc_value : Int

/-- Result of a call to `ipc_recv`: the returned value together with the
value written through each out-parameter (`none` models a `NULL`
out-pointer, through which nothing is written). -/
structure RecvResult where
  ret : Int
  fromStore : Option Nat
  permStore : Option Nat
  deriving DecidableEq

/-- `ipc_recv` from `src/unnamed/part_001` lines 17–44, given the caller's
mailbox `e` and the return value `err` of the blocking `sys_ipc_recv`
(negative on failure).  `fromReq`/`permReq` record whether the caller passed
non-null `from_env_store`/`perm_store` slots.  The function body contains no
`panic`, so the embedding returns normally on every input. -/
def ipc_recv (pg : Nat) (fromReq permReq : Bool) (err : Int) (e : IpcEnv) :
    Nat × RecvResult :=
  (ipc_recv_slot pg,
   { ret := if err < 0 then err else e.ipc_value
     fromStore := if fromReq then some (if err < 0 then 0 else e.ipc_from) else none
     permStore := if permReq then some (if err < 0 then 0 else e.ipc_perm) else none })

/-- `ipc_recv` from `src/lab4/lib/ipc.c` lines 17–45; identical to the lab-5
copy except for the slot branch (and reading the mailbox through
`envs[ENVX(sys_getenvid())]`, which denotes the same caller mailbox). -/
def ipc_recv_lab4 (pg : Nat) (fromReq permReq : Bool) (err : Int) (e : IpcEnv) :
    Nat × RecvResult :=
  (ipc_recv_slot_lab4 pg,
   { ret := if err < 0 then err else e.ipc_value
     fromStore := if fromReq then some (if err < 0 then 0 else e.ipc_from) else none
     permStore := if permReq then some (if err < 0 then 0 else e.ipc_perm) else none })

/-- The page-address argument passed to `sys_ipc_try_send` by `ipc_send`
(`src/unnamed/part_001` line 73, identically `src/lab4/lib/ipc.c` line 74):
`pg != NULL ? pg : (void *)UTOP`. -/
def ipc_send_pg_arg (pg : Nat) : Nat :=
  if pg ≠ 0 then pg else UTOP

/-- Outcome of the `ipc_send` retry loop. -/
inductive SendOutcome where
  /-- `sys_ipc_try_send` returned non-negative: `ipc_send` returns (void). -/
  | success
  /-- a negative error other than `-E_IPC_NOT_RECV`: the process aborts. -/
  | aborted (err : Int)
  /-- the supplied trace of try-send results was exhausted while spinning. -/
  | spinning
  deriving DecidableEq

/-- The `ipc_send` retry loop (`src/unnamed/part_001` lines 73–77,
identically `src/lab4/lib/ipc.c` lines 74–78), driven by the successive
return values of `sys_ipc_try_send`:

    while ((err = sys_ipc_try_send(...)) < 0) {
        if (err != -E_IPC_NOT_RECV) panic(...);
        sys_yield();
    }

Returns the outcome together with the number of `sys_yield()` calls made. -/
def ipc_send_loop : List Int → SendOutcome × Nat
  | [] => (.spinning, 0)
  | err :: rest =>
      if err < 0 then
        if err ≠ -E_IPC_NOT_RECV then (.aborted err, 0)
        else
          let (o, y) := ipc_send_loop rest
          (o, y + 1)
      else (.success, 0)

/-! ### IPC theorems -/

/-- **C1.** The lab-4 `ipc_recv` (src/lab4/lib/ipc.c lines 22–25) inverts
the claimed branch: with a null page slot it passes the null pointer `0`
to `sys_ipc_recv` (its own header comment says "Zero is not the right
value"), and with a non-null slot it passes the `UTOP` sentinel instead of
the slot.  The lab-5 copy (src/unnamed/part_001 lines 22–25) behaves as the
claim states: the slot itself when non-null, the non-zero sentinel `UTOP`
exactly when the slot is null. -/
theorem C1_ipc_recv_slot : ipc_recv_slot_lab4 0 = 0 ∧ (0 : Nat) ≠ UTOP ∧
    ipc_recv_slot_lab4 0xa00000 = UTOP ∧
    ipc_recv_slot 0 = UTOP ∧ ipc_recv_slot 0xa00000 = 0xa00000 ∧ UTOP ≠ 0 := by
  decide

/-- **C4.** The `ipc_send` retry loop: (a) while `sys_ipc_try_send` keeps
failing with exactly `-E_IPC_NOT_RECV` it is retried, with one cooperative
`sys_yield()` per failed attempt, and a later non-negative result makes
`ipc_send` return silently; (b) any other negative error aborts the calling
process at once (no further attempts, no normal return); (c) a non-negative
first result succeeds immediately; (d) the "no page" sentinel `UTOP` is
substituted for the page argument exactly when `pg` is null. -/
theorem C4_ipc_send_retry :
    (∀ (n : Nat) (r : Int) (rest : List Int), 0 ≤ r →
      ipc_send_loop (List.replicate n (-E_IPC_NOT_RECV) ++ r :: rest) = (.success, n)) ∧
    (∀ (n : Nat) (e : Int) (rest : List Int), e < 0 → e ≠ -E_IPC_NOT_RECV →
      ipc_send_loop (List.replicate n (-E_IPC_NOT_RECV) ++ e :: rest) = (.aborted e, n)) ∧
    (ipc_send_pg_arg 0 = UTOP ∧ ∀ p : Nat, p ≠ 0 → ipc_send_pg_arg p = p) := by
  refine ⟨?_, ?_, ?_, ?_⟩
  · intro n r rest hr
    induction n with
    | zero => simp [ipc_send_loop, not_lt.mpr hr]
    | succ k ih =>
        have hlt : (-E_IPC_NOT_RECV : Int) < 0 := by decide
        simp [List.replicate_succ, ipc_send_loop, hlt, ih]
  · intro n e rest he hne
    induction n with
    | zero => simp [ipc_send_loop, he, hne]
    | succ k ih =>
        have hlt : (-E_IPC_NOT_RECV : Int) < 0 := by decide
        simp [List.replicate_succ, ipc_send_loop, hlt, ih]
  · decide
  · intro p hp
    simp [ipc_send_pg_arg, hp]

/-- Witness for C4 at concrete inputs: two "not receiving" failures then a
success yield outcome `success` with 2 yields; an immediate `-E_INVAL`
aborts with no yield. -/
theorem C4_ipc_send_retry_witness :
    ipc_send_loop [-E_IPC_NOT_RECV, -E_IPC_NOT_RECV, 0] = (.success, 2) ∧
    ipc_send_loop [-E_INVAL] = (.aborted (-E_INVAL), 0) ∧
    ipc_send_pg_arg 0xb00000 = 0xb00000 := by
  refine ⟨?_, ?_, ?_⟩
  · have h := C4_ipc_send_retry.1 2 0 [] (by decide)
    simpa using h
  · have h := C4_ipc_send_retry.2.1 0 (-E_INVAL) [] (by decide) (by decide)
    simpa using h
  · exact C4_ipc_send_retry.2.2.2 0xb00000 (by decide)

/-- **C5.** When the blocking receive fails (`err < 0`), both copies of
`ipc_recv` return the error code itself (not the mailbox payload), write the
neutral value `0` through the sender-id and permission out-parameters
exactly when the corresponding slot was supplied non-null (never writing
through a null pointer), and return normally (the function contains no
abort path). -/
theorem C5_ipc_recv_error (pg : Nat) (fromReq permReq : Bool) (err : Int)
    (e : IpcEnv) (herr : err < 0) :
    (ipc_recv pg fromReq permReq err e).2 =
      { ret := err
        fromStore := if fromReq then some 0 else none
        permStore := if permReq then some 0 else none } ∧
    (ipc_recv_lab4 pg fromReq permReq err e).2 =
      { ret := err
        fromStore := if fromReq then some 0 else none
        permStore := if permReq then some 0 else none } := by
  constructor <;> simp [ipc_recv, ipc_recv_lab4, herr]

/-- Witness for C5: a failing receive (`err = -E_INVAL < 0`) with a
requested sender-id slot and a null permission slot. -/
theorem C5_ipc_recv_error_witness :
    (-E_INVAL : Int) < 0 ∧
    (ipc_recv 0 true false (-E_INVAL) ⟨17, 5, 99⟩).2 =
      { ret := -E_INVAL, fromStore := some 0, permStore := none } := by
  refine ⟨by decide, ?_⟩
  have h := C5_ipc_recv_error 0 true false (-E_INVAL) ⟨17, 5, 99⟩ (by decide)
  simpa using h.1

/-! ## Kernel monitor (`src/lab5/kern/monitor.c`)

Input lines and command names are modelled as lists of character codes
(the C `char` buffer up to, and excluding, its terminating NUL). -/

/-- `MAXARGS` from `src/lab5/kern/monitor.c` line 184. -/
def MAXARGS : Nat := 16

/-- The character codes of `WHITESPACE "\t\r\n "`
(`src/lab5/kern/monitor.c` line 183). -/
def WHITESPACE : List Nat := [9, 13, 10, 32]

/-- `strchr(WHITESPACE, c) != 0` for a character `c`. -/
def isWS (c : Nat) : Bool := WHITESPACE.contains c

/-- Character codes of an ASCII string literal (for the command table). -/
def ascii (s : String) : List Nat := s.data.map Char.toNat

/-- The names of the static command table `commands[]`
(`src/lab5/kern/monitor.c` lines 36–44), in table order. -/
def commandNames : List (List Nat) :=
  [ascii "help", ascii "kerninfo", ascii "backtrace", ascii "showmappings",
   ascii "alloc_page", ascii "free_page", ascii "page_status"]

/-- Result of `runcmd`'s argument-parsing loop. -/
inductive TokRes where
  /-- the whitespace-separated tokens of the line, in order -/
  | toks (argv : List (List Nat))
  /-- `argc` reached `MAXARGS-1` with input left: prints
  "Too many arguments" and `runcmd` returns 0 without dispatching -/
  | tooMany
  /-- fuel exhausted (never happens with fuel above the buffer length) -/
  | fuelOut
  deriving DecidableEq

/-- One `while (*buf && strchr(WHITESPACE, *buf)) *buf++ = 0;` gobble step:
skip leading whitespace (a NUL terminates the buffer). -/
def gobble (buf : List Nat) : List Nat :=
  buf.dropWhile (fun c => c ≠ 0 && isWS c)

/-- The tokenizing loop of `runcmd` (`src/lab5/kern/monitor.c` lines
194–212): gobble whitespace; stop at end of buffer; report too-many when
`argc == MAXARGS-1` and input remains; otherwise save the maximal run of
non-whitespace characters as the next argument and continue.  `fuel` is a
structural-recursion bound, irrelevant whenever it exceeds the buffer
length (`tokLoop_no_fuelOut`). -/
def tokLoop (argc : Nat) (acc : List (List Nat)) :
    Nat → List Nat → TokRes
  | 0, _ => .fuelOut
  | fuel + 1, buf =>
      match gobble buf with
      | [] => .toks acc
      | c :: rest =>
          if c = 0 then .toks acc
          else if argc = MAXARGS - 1 then .tooMany
          else
            tokLoop (argc + 1)
              (acc ++ [c :: rest.takeWhile (fun x => x ≠ 0 && !isWS x)])
              fuel (rest.dropWhile (fun x => x ≠ 0 && !isWS x))

/-- The argument vector produced by `runcmd` for a given input line. -/
def tokenize (buf : List Nat) : TokRes :=
  tokLoop 0 [] (buf.length + 1) buf

/-- Outcome of `runcmd` (`src/lab5/kern/monitor.c` lines 186–223). -/
inductive RunOut where
  /-- empty line (`argc == 0`): return 0, no handler invoked -/
  | empty
  /-- "Too many arguments (max 16)" printed, return 0, no handler invoked -/
  | tooMany
  /-- "Unknown command '...'" printed, return 0 -/
  | unknown (tok : List Nat)
  /-- the handler of table entry `name` is invoked with the full argument
  vector `argv` (its return value is the handler's) -/
  | dispatch (name : List Nat) (argv : List (List Nat))
  /-- fuel exhaustion marker propagated from `tokenize` (unreachable) -/
  | fuelOut
  deriving DecidableEq

/-- `runcmd` (`src/lab5/kern/monitor.c` lines 186–223): tokenize, then
return 0 on an empty line, else scan the command table for the first entry
whose name compares equal (`strcmp == 0`) to the first token and invoke its
handler with the full argument vector, else print "Unknown command". -/
def runcmd (buf : List Nat) : RunOut :=
  match tokenize buf with
  | .fuelOut => .fuelOut
  | .tooMany => .tooMany
  | .toks [] => .empty
  | .toks (t :: args) =>
      match commandNames.find? (fun n => n == t) with
      | some n => .dispatch n (t :: args)
      | none => .unknown t

/-- Messages printed by the modelled monitor commands. -/
inductive MonMsg where
  /-- "Usage: showmappings LOWER_VIRTUAL_ADDR HIGHER_VIRTUAL_ADDR" -/
  | usageShowmappings
  /-- Modelled from the spec: the virtual-address-range-to-physical-mapping
  dump (or the "Invalid address" message) produced by the `argc == 3` branch;
  its line-by-line content depends on the substrate page-table walk
  (`pgdir_walk`, `kern/pmap.c`), which is not under `src/`. -/
  | mappingDump
  /-- "Usage: free_page PHYSIC_ADDR" -/
  | usageFreePage
  /-- "Free successfully!" -/
  | freeOk
  /-- "Free failed!" -/
  | freeFail
  /-- "Usage: page_status PHYSIC_ADDR" -/
  | usagePageStatus
  /-- "allocated" / "free" status line -/
  | statusLine
  deriving DecidableEq

/-- `mon_showmappings` (`src/lab5/kern/monitor.c` lines 98–134): with
exactly three arguments it prints the mapping dump, otherwise a usage
message; it returns 0 in every case. -/
def mon_showmappings (argv : List (List Nat)) : List MonMsg × Int :=
  if argv.length = 3 then ([.mappingDump], 0)
  else ([.usageShowmappings], 0)

/-- Allocation state of a physical page as seen by the monitor: its
reference count and whether it is outside the free list. -/
structure PageSt where
  pp_ref : Nat
  allocated : Bool
  deriving DecidableEq

/-- Modelled from the spec: `page_decref` of the page-allocator substrate
(`kern/pmap.c`, not under `src/`): decrement the reference count and return
the page to the free list exactly when the count reaches zero (spec §2
"Page/Address-Space Substrate: allocate/free physical pages ... refcount"). -/
def page_decref (p : PageSt) : PageSt :=
  { pp_ref := p.pp_ref - 1, allocated := p.pp_ref - 1 ≠ 0 }

/-- `mon_free_page` (`src/lab5/kern/monitor.c` lines 149–164), with the
physical-address argument already resolved to its page `page`
(`pa2page(strtol(argv[1], 0, 0))`, substrate): with two arguments it calls
`page_decref` exactly when `pp_ref == 1` (printing success), otherwise
prints "Free failed!" and leaves the page untouched; with any other
argument count it prints usage.  Returns 0 in every case. -/
def mon_free_page (argv : List (List Nat)) (page : PageSt) :
    PageSt × List MonMsg × Int :=
  if argv.length = 2 then
    if page.pp_ref = 1 then (page_decref page, [.freeOk], 0)
    else (page, [.freeFail], 0)
  else (page, [.usageFreePage], 0)

/-! ### Monitor lemmas -/

/-- The head of a `dropWhile` result falsifies the predicate. -/
theorem dropWhile_head_false {p : Nat → Bool} :
    ∀ (l : List Nat) (c : Nat) (rest : List Nat),
      l.dropWhile p = c :: rest → p c = false := by
  intro l
  induction l with
  | nil => intro c rest h; simp [List.dropWhile] at h
  | cons a t ih =>
      intro c rest h
      by_cases hp : p a = true
      · rw [List.dropWhile_cons_of_pos hp] at h
        exact ih _ _ h
      · rw [List.dropWhile_cons_of_neg hp] at h
        injection h with h1 h2
        subst h1
        simpa using hp

theorem tokLoop_no_fuelOut (fuel : Nat) :
    ∀ (buf : List Nat) (argc : Nat) (acc : List (List Nat)),
      buf.length < fuel → tokLoop argc acc fuel buf ≠ .fuelOut := by
  induction fuel with
  | zero => intro buf argc acc h; omega
  | succ k ih =>
      intro buf argc acc h
      rw [tokLoop]
      cases hg : gobble buf with
      | nil => simp
      | cons c rest =>
          dsimp only
          by_cases hc : c = 0
          · simp [hc]
          · rw [if_neg hc]
            by_cases ha : argc = MAXARGS - 1
            · rw [if_pos ha]; simp
            · rw [if_neg ha]
              apply ih
              have h1 : (gobble buf).length ≤ buf.length :=
                (List.dropWhile_sublist _).length_le
              have h2 : (rest.dropWhile (fun x => x ≠ 0 && !isWS x)).length ≤
                  rest.length := (List.dropWhile_sublist _).length_le
              have h3 : rest.length + 1 = (gobble buf).length := by
                rw [hg]; simp
              omega

/-- Every token produced by the tokenizer is a nonempty run of non-NUL,
non-whitespace characters. -/
theorem tokLoop_tokens_wf (fuel : Nat) :
    ∀ (buf : List Nat) (argc : Nat) (acc : List (List Nat))
      (toks : List (List Nat)),
      (∀ t ∈ acc, t ≠ [] ∧ ∀ ch ∈ t, ch ≠ 0 ∧ isWS ch = false) →
      tokLoop argc acc fuel buf = .toks toks →
      ∀ t ∈ toks, t ≠ [] ∧ ∀ ch ∈ t, ch ≠ 0 ∧ isWS ch = false := by
  induction fuel with
  | zero => intro buf argc acc toks hacc h; simp [tokLoop] at h
  | succ k ih =>
      intro buf argc acc toks hacc h
      rw [tokLoop] at h
      cases hg : gobble buf with
      | nil =>
          rw [hg] at h
          simp only [TokRes.toks.injEq] at h
          subst h; exact hacc
      | cons c rest =>
          rw [hg] at h
          dsimp only at h
          by_cases hc : c = 0
          · rw [if_pos hc] at h
            simp only [TokRes.toks.injEq] at h
            subst h; exact hacc
          · rw [if_neg hc] at h
            by_cases ha : argc = MAXARGS - 1
            · rw [if_pos ha] at h; simp at h
            · rw [if_neg ha] at h
              refine ih _ _ _ _ ?_ h
              intro t ht
              rcases List.mem_append.mp ht with h1 | h1
              · exact hacc t h1
              · have ht' : t = c :: rest.takeWhile (fun x => x ≠ 0 && !isWS x) := by
                  simpa using h1
                subst ht'
                refine ⟨by simp, ?_⟩
                intro ch hch
                rcases List.mem_cons.mp hch with h2 | h2
                · subst h2
                  have hpc : (fun x => x ≠ 0 && isWS x) ch = false :=
                    dropWhile_head_false buf ch rest hg
                  simp only [ne_eq, Bool.and_eq_false_iff,
                    decide_eq_false_iff_not, not_not] at hpc
                  rcases hpc with h3 | h3
                  · exact absurd h3 hc
                  · exact ⟨hc, h3⟩
                · have h3 := List.mem_takeWhile_imp h2
                  simp only [Bool.and_eq_true, ne_eq, Bool.not_eq_true',
                    decide_eq_true_eq] at h3
                  exact ⟨h3.1, h3.2⟩

/-- A successful lookup in the command table returns the searched name. -/
theorem find?_commandNames {t n : List Nat}
    (h : commandNames.find? (fun n => n == t) = some n) : n = t := by
  have := List.find?_some h
  simpa using this

/-- A name present in the command table is found by the lookup loop. -/
theorem find?_commandNames_mem {t : List Nat} (h : t ∈ commandNames) :
    commandNames.find? (fun n => n == t) = some t := by
  cases hf : commandNames.find? (fun n => n == t) with
  | none =>
      exfalso
      have := List.find?_eq_none.mp hf t h
      simp at this
  | some n =>
      have := find?_commandNames hf
      rw [this]

/-! ### Monitor theorems -/

/-- **C9 (counterexample).** A line of 16 whitespace-separated tokens whose
first token is the table entry `help` is *not* dispatched: `runcmd` prints
"Too many arguments (max 16)" and returns 0 once `argc` reaches
`MAXARGS - 1 = 15` with input remaining (`src/lab5/kern/monitor.c` lines
204–207), contradicting the claim as stated for this input line. -/
theorem C9_runcmd_counterexample :
    runcmd (ascii "help a a a a a a a a a a a a a a a") = .tooMany ∧
    ascii "help" ∈ commandNames := by
  constructor <;> decide

/-- **C9 (amended).** For every input line that tokenizes to at most
`MAXARGS - 1 = 15` whitespace-separated arguments, `runcmd` behaves as the
claim states: the produced argument vector consists of nonempty
whitespace-free tokens; an empty line does nothing (returns 0); a first
token matching a command-table entry dispatches that entry's handler with
the full argument vector; an unmatched first token reports "Unknown
command" (returning 0).  A line with more than 15 tokens instead prints
"Too many arguments" and returns 0 without dispatching.  Monitor commands
handed a malformed argument count print a usage message and return 0 (not
an error): `mon_showmappings` for `argc ≠ 3` and `mon_free_page` for
`argc ≠ 2`. -/
theorem C9_runcmd_dispatch (buf : List Nat) :
    (∀ toks, tokenize buf = .toks toks →
       (∀ t ∈ toks, t ≠ [] ∧ ∀ ch ∈ t, ch ≠ 0 ∧ isWS ch = false) ∧
       (toks = [] → runcmd buf = .empty) ∧
       (∀ t args, toks = t :: args →
          (t ∈ commandNames → runcmd buf = .dispatch t (t :: args)) ∧
          (t ∉ commandNames → runcmd buf = .unknown t))) ∧
    (tokenize buf = .tooMany → runcmd buf = .tooMany) ∧
    runcmd buf ≠ .fuelOut ∧
    (∀ argv : List (List Nat), argv.length ≠ 3 →
       mon_showmappings argv = ([.usageShowmappings], 0)) ∧
    (∀ (argv : List (List Nat)) (page : PageSt), argv.length ≠ 2 →
       mon_free_page argv page = (page, [.usageFreePage], 0)) := by
  refine ⟨?_, ?_, ?_, ?_, ?_⟩
  · intro toks htoks
    refine ⟨tokLoop_tokens_wf _ _ _ _ _ (by simp) htoks, ?_, ?_⟩
    · intro h
      subst h
      simp [runcmd, htoks]
    · intro t args h
      subst h
      constructor
      · intro hmem
        simp [runcmd, htoks, find?_commandNames_mem hmem]
      · intro hmem
        have hnone : commandNames.find? (fun n => n == t) = none := by
          cases hf : commandNames.find? (fun n => n == t) with
          | none => rfl
          | some n =>
              exact absurd (find?_commandNames hf ▸ List.mem_of_find?_eq_some hf)
                hmem
        simp [runcmd, htoks, hnone]
  · intro h
    simp [runcmd, h]
  · have hne := tokLoop_no_fuelOut (buf.length + 1) buf 0 [] (by omega)
    unfold runcmd tokenize
    cases htoks : tokLoop 0 [] (buf.length + 1) buf with
    | toks argv =>
        cases argv with
        | nil => simp
        | cons t args =>
            cases hf : commandNames.find? (fun n => n == t) <;> simp [hf]
    | tooMany => simp
    | fuelOut => exact absurd htoks hne
  · intro argv h
    simp [mon_showmappings, h]
  · intro argv page h
    simp [mon_free_page, h]

/-- Witness for C9: the line `"showmappings 0x1000"` tokenizes to two
arguments and dispatches the `showmappings` table entry with them; handed
to `mon_showmappings`, this malformed argument count (2 ≠ 3) yields the
usage message and return value 0. -/
theorem C9_runcmd_dispatch_witness :
    runcmd (ascii "showmappings 0x1000") =
      .dispatch (ascii "showmappings") [ascii "showmappings", ascii "0x1000"] ∧
    mon_showmappings [ascii "showmappings", ascii "0x1000"] =
      ([.usageShowmappings], 0) := by
  have h := C9_runcmd_dispatch (ascii "showmappings 0x1000")
  have htoks : tokenize (ascii "showmappings 0x1000") =
      .toks [ascii "showmappings", ascii "0x1000"] := by decide
  refine ⟨?_, ?_⟩
  · exact ((h.1 _ htoks).2.2 _ _ rfl).1 (by decide)
  · exact h.2.2.2.1 _ (by decide)

/-- **C10.** `mon_free_page` invoked with a physical-address argument
(`argc = 2`): when the resolved page's reference count is exactly 1 it is
freed via `page_decref` (count drops to 0 and the page returns to the free
list) and success is printed; for any other reference count the command
prints "Free failed!" and leaves the page state untouched.  The command
returns 0 in both cases. -/
theorem C10_mon_free_page (argv : List (List Nat)) (page : PageSt)
    (hlen : argv.length = 2) :
    (page.pp_ref = 1 →
       mon_free_page argv page = (page_decref page, [.freeOk], 0) ∧
       (page_decref page).pp_ref = 0 ∧ (page_decref page).allocated = false) ∧
    (page.pp_ref ≠ 1 →
       mon_free_page argv page = (page, [.freeFail], 0)) := by
  constructor
  · intro h1
    refine ⟨by simp [mon_free_page, hlen, h1], ?_, ?_⟩ <;>
      simp [page_decref, h1]
  · intro h1
    simp [mon_free_page, hlen, h1]

/-- Witness for C10: freeing a page with `pp_ref = 1` succeeds and
deallocates it; freeing one with `pp_ref = 2` fails and changes nothing. -/
theorem C10_mon_free_page_witness :
    mon_free_page [ascii "free_page", ascii "0x1000"] ⟨1, true⟩ =
      (⟨0, false⟩, [.freeOk], 0) ∧
    mon_free_page [ascii "free_page", ascii "0x1000"] ⟨2, true⟩ =
      (⟨2, true⟩, [.freeFail], 0) := by
  constructor
  · have h := (C10_mon_free_page [ascii "free_page", ascii "0x1000"]
      ⟨1, true⟩ (by decide)).1 rfl
    simpa [page_decref] using h.1
  · exact (C10_mon_free_page [ascii "free_page", ascii "0x1000"]
      ⟨2, true⟩ (by decide)).2 (by decide)

/-! ## Image loader / spawner (`src/unnamed/part_000`, the lab-5 `lib/spawn.c`) -/

/-- `ROUNDDOWN(a, n)` of `inc/types.h`: round `a` down to a multiple of `n`. -/
def rdown (a n : Nat) : Nat := a - a % n

/-- `ROUNDUP(a, n)`: round `a` up to a multiple of `n`. -/
def rup (a n : Nat) : Nat := rdown (a + n - 1) n

/-- How the front of `spawn` leaves its caller. -/
inductive SpawnAct where
  /-- `spawn` returns the error code `e` to its caller -/
  | errored (e : Int)
  /-- the calling process aborts inside `panic()` (which never returns) -/
  | panicked
  /-- the executable header was accepted; `spawn` continues loading -/
  | proceed
  deriving DecidableEq

/-- The opening steps of `spawn` (`src/unnamed/part_000` lines 91–99):
propagate a failed `open`; then
`if (ELFHDR->e_magic != ELF_MAGIC) { panic(...); return -E_INVAL; }`.
`panic` aborts the process and never returns (spec §4.1), so the
`return -E_INVAL` on line 98 is dead code: the bad-magic branch embeds as
`panicked`, not as `errored (-E_INVAL)`. -/
def spawn_head_check (openRes : Int) (e_magic : Nat) : SpawnAct :=
  if openRes < 0 then .errored openRes
  else if e_magic ≠ ELF_MAGIC then .panicked
  else .proceed

/-- Substrate calls issued by spawn's segment-loading loops. -/
inductive SpEv where
  /-- `read_map(fdnum, off, &blk)` -/
  | read_map (off : Nat)
  /-- `sys_page_map(0, src, child, dstVa, perm)` -/
  | page_map (src dstVa perm : Nat)
  deriving DecidableEq

/-- The read-only (text) chunk loop of `spawn`
(`src/unnamed/part_000` lines 117–127): for each page-aligned chunk `i`,
`read_map` the file page at offset `i` and `sys_page_map` the returned
block into the child at `va + i - start` with permission `PTE_U | PTE_P`.
`blkOf` is the oracle giving the block address a successful `read_map`
returns for each offset; `n` counts the chunks left. -/
def loadSegROGo (blkOf : Nat → Nat) (va start : Nat) :
    Nat → Nat → List SpEv
  | 0, _ => []
  | n + 1, i =>
      .read_map i ::
      .page_map (blkOf i) (va + i - start) (PTE_U ||| PTE_P) ::
      loadSegROGo blkOf va start n (i + PGSIZE)

/-- The full read-only segment treatment (`src/unnamed/part_000` lines
112–127): `start = ROUNDDOWN(p_offset, PGSIZE)`,
`end = ROUNDUP(p_filesz + p_offset, PGSIZE)`,
`va = ROUNDDOWN(p_va, PGSIZE)`, one chunk per `PGSIZE` step of
`for (i = start; i < end; i += PGSIZE)`. -/
def loadSegRO (blkOf : Nat → Nat) (p_va p_offset p_filesz : Nat) :
    List SpEv :=
  let start := rdown p_offset PGSIZE
  let endp := rup (p_filesz + p_offset) PGSIZE
  loadSegROGo blkOf (rdown p_va PGSIZE) start ((endp - start) / PGSIZE) start

/-- One iteration of the writable (data+bss) chunk loop of `spawn`
(`src/unnamed/part_000` lines 134–146), producing the final byte content of
the page built at `UTEMP` together with the advanced file cursor:
`sys_page_alloc` + `memset(UTEMP, 0, PGSIZE)` zero the page; if
`i < limit` (`limit = p_offset + p_filesz`), `read(fdnum, UTEMP, PGSIZE)`
copies the next `min(PGSIZE, file size - cursor)` file bytes to the start
of the page, and on the chunk containing the limit
(`i == ROUNDDOWN(limit, PGSIZE)`) the tail
`memset(UTEMP + limit - i, 0, PGSIZE - (limit - i))` re-zeroes the bytes
past the file-backed limit. -/
def loadSegWPage (file : List Nat) (limit cur i : Nat) : List Nat × Nat :=
  if i < limit then
    let bytes := (file.drop cur).take PGSIZE
    let page := bytes ++ List.replicate (PGSIZE - bytes.length) 0
    let page := if i = rdown limit PGSIZE then
        page.take (limit - i) ++ List.replicate (PGSIZE - (limit - i)) 0
      else page
    (page, cur + bytes.length)
  else (List.replicate PGSIZE 0, cur)

/-- The writable chunk loop (`src/unnamed/part_000` lines 129–153):
each chunk's page is mapped into the child at `va + i - start`
(with `PTE_U | PTE_W | PTE_P`) and unmapped from `UTEMP`; the result lists
the pairs (child virtual address, page byte content) in loop order. -/
def loadSegWGo (file : List Nat) (limit va start : Nat) :
    Nat → Nat → Nat → List (Nat × List Nat)
  | 0, _, _ => []
  | n + 1, i, cur =>
      let pc := loadSegWPage file limit cur i
      (va + i - start, pc.1) ::
      loadSegWGo file limit va start n (i + PGSIZE) pc.2

/-- The full writable segment treatment (`src/unnamed/part_000` lines
129–134): `limit = p_offset + p_filesz`,
`end = ROUNDUP(p_memsz + p_offset, PGSIZE)`, `seek(fdnum, p_offset)`
initialises the file cursor to `p_offset`, and the loop runs from
`start = ROUNDDOWN(p_offset, PGSIZE)`. -/
def loadSegW (file : List Nat) (p_va p_offset p_filesz p_memsz : Nat) :
    List (Nat × List Nat) :=
  let start := rdown p_offset PGSIZE
  let limit := p_offset + p_filesz
  let endp := rup (p_memsz + p_offset) PGSIZE
  loadSegWGo file limit (rdown p_va PGSIZE) start
    ((endp - start) / PGSIZE) start p_offset

/-- Byte `j` of child page `k` of a writable segment as the claim
(spec §8) prescribes it: the source file's byte at the corresponding
offset for offsets before the file-backed length `p_offset + p_filesz`,
and zero beyond it. -/
def wantedWByte (file : List Nat) (p_offset p_filesz k j : Nat) : Nat :=
  if rdown p_offset PGSIZE + k * PGSIZE + j < p_offset + p_filesz
  then file.getD (rdown p_offset PGSIZE + k * PGSIZE + j) 0
  else 0

/-! ### Spawner theorems -/

/-- **C2.** An executable whose header magic number (here `0`) differs from
`ELF_MAGIC` makes `spawn` abort the calling process via `panic`
(`src/unnamed/part_000` line 97); the `return -E_INVAL` on line 98 is
unreachable, so `spawn` does *not* return the invalid-executable error to
its caller, contradicting the claim. -/
theorem C2_spawn_bad_magic :
    spawn_head_check 3 0 = .panicked ∧ (0 : Nat) ≠ ELF_MAGIC ∧
    spawn_head_check 3 0 ≠ .errored (-E_INVAL) ∧
    spawn_head_check 3 ELF_MAGIC = .proceed ∧
    spawn_head_check (-7) 0 = .errored (-7) := by
  refine ⟨by decide, by decide, by decide, ?_, by decide⟩
  simp [spawn_head_check]

/-- Unrolled form of the read-only chunk loop. -/
theorem loadSegROGo_spec (blkOf : Nat → Nat) (va start : Nat) :
    ∀ (n i : Nat), start ≤ i →
      loadSegROGo blkOf va start n i =
        (List.range n).flatMap (fun k =>
          [.read_map (i + k * PGSIZE),
           .page_map (blkOf (i + k * PGSIZE))
             (va + (i - start) + k * PGSIZE) (PTE_U ||| PTE_P)]) := by
  intro n
  induction n with
  | zero => intro i hi; simp [loadSegROGo]
  | succ m ih =>
      intro i hi
      rw [loadSegROGo, List.range_succ_eq_map, List.flatMap_cons, List.flatMap_map]
      have h2 : (List.range m).flatMap
          (fun k => [SpEv.read_map (i + Nat.succ k * PGSIZE),
            .page_map (blkOf (i + Nat.succ k * PGSIZE))
              (va + (i - start) + Nat.succ k * PGSIZE) (PTE_U ||| PTE_P)]) =
          (List.range m).flatMap
          (fun k => [SpEv.read_map ((i + PGSIZE) + k * PGSIZE),
            .page_map (blkOf ((i + PGSIZE) + k * PGSIZE))
              (va + ((i + PGSIZE) - start) + k * PGSIZE) (PTE_U ||| PTE_P)]) := by
        apply List.flatMap_congr
        intro k _
        have e1 : i + Nat.succ k * PGSIZE = (i + PGSIZE) + k * PGSIZE := by
          simp [Nat.succ_mul]; omega
        have e2 : va + (i - start) + Nat.succ k * PGSIZE =
            va + ((i + PGSIZE) - start) + k * PGSIZE := by
          simp [Nat.succ_mul]; omega
        rw [e1, e2]
      rw [ih (i + PGSIZE) (by omega)]
      rw [h2]
      have h1 : va + i - start = va + (i - start) + 0 * PGSIZE := by omega
      simp [h1]

theorem loadSegROGo_length (blkOf : Nat → Nat) (va start : Nat) :
    ∀ (n i : Nat), (loadSegROGo blkOf va start n i).length = 2 * n := by
  intro n
  induction n with
  | zero => intro i; simp [loadSegROGo]
  | succ m ih => intro i; rw [loadSegROGo]; simp [ih]; ring

theorem loadSegROGo_get (blkOf : Nat → Nat) (va start : Nat) :
    ∀ (n i k : Nat), start ≤ i → k < n →
      (loadSegROGo blkOf va start n i)[2 * k]? =
        some (.read_map (i + k * PGSIZE)) ∧
      (loadSegROGo blkOf va start n i)[2 * k + 1]? =
        some (.page_map (blkOf (i + k * PGSIZE))
          (va + (i - start) + k * PGSIZE) (PTE_U ||| PTE_P)) := by
  intro n
  induction n with
  | zero => intro i k hi hk; omega
  | succ m ih =>
      intro i k hi hk
      cases k with
      | zero =>
          rw [loadSegROGo]
          constructor
          · simp
          · have e : va + i - start = va + (i - start) + 0 * PGSIZE := by omega
            simp [e]
      | succ k' =>
          rw [loadSegROGo]
          have e2 : 2 * (k' + 1) = (2 * k' + 1) + 1 := by ring
          rw [e2]
          simp only [List.getElem?_cons_succ]
          have h := ih (i + PGSIZE) k' (by omega) (by omega)
          have e4 : i + PGSIZE + k' * PGSIZE = i + (k' + 1) * PGSIZE := by
            ring_nf
          have e5 : va + (i + PGSIZE - start) + k' * PGSIZE =
              va + (i - start) + (k' + 1) * PGSIZE := by
            have : (k' + 1) * PGSIZE = k' * PGSIZE + PGSIZE := by ring
            omega
          rw [e4, e5] at h
          exact h

/-- **C8.** For every page-aligned chunk `k` of a read-only (text) segment
(file range rounded down at `p_offset`, rounded up at
`p_offset + p_filesz`), the loop issues exactly one `read_map` for the file
page at offset `start + k*PGSIZE` immediately followed by one
`sys_page_map` whose *source is exactly the block address that `read_map`
returned* (the same physical page backing the file, shared zero-copy), and
whose destination is the child's page-aligned address
`ROUNDDOWN(p_va) + k*PGSIZE`, with user-readable non-writable permission
`PTE_U | PTE_P`; the loop performs nothing else. -/
theorem C8_spawn_text_shared (blkOf : Nat → Nat)
    (p_va p_offset p_filesz k : Nat)
    (hk : k < (rup (p_filesz + p_offset) PGSIZE - rdown p_offset PGSIZE) /
      PGSIZE) :
    (loadSegRO blkOf p_va p_offset p_filesz)[2 * k]? =
      some (.read_map (rdown p_offset PGSIZE + k * PGSIZE)) ∧
    (loadSegRO blkOf p_va p_offset p_filesz)[2 * k + 1]? =
      some (.page_map (blkOf (rdown p_offset PGSIZE + k * PGSIZE))
        (rdown p_va PGSIZE + k * PGSIZE) (PTE_U ||| PTE_P)) ∧
    (loadSegRO blkOf p_va p_offset p_filesz).length =
      2 * ((rup (p_filesz + p_offset) PGSIZE - rdown p_offset PGSIZE) /
        PGSIZE) := by
  have h := loadSegROGo_get blkOf (rdown p_va PGSIZE) (rdown p_offset PGSIZE)
    ((rup (p_filesz + p_offset) PGSIZE - rdown p_offset PGSIZE) / PGSIZE)
    (rdown p_offset PGSIZE) k (le_refl _) hk
  have hl := loadSegROGo_length blkOf (rdown p_va PGSIZE)
    (rdown p_offset PGSIZE)
    ((rup (p_filesz + p_offset) PGSIZE - rdown p_offset PGSIZE) / PGSIZE)
    (rdown p_offset PGSIZE)
  rw [Nat.sub_self] at h
  exact ⟨by simpa [loadSegRO] using h.1,
         by simpa [loadSegRO] using h.2,
         by simpa [loadSegRO] using hl⟩

/-- Witness for C8: a two-chunk read-only segment (`p_offset = 100`,
`p_filesz = 5000`), block oracle `blkOf = (0x100000 + ·)`, chunk `k = 1`. -/
theorem C8_spawn_text_shared_witness :
    (1 : Nat) <
      (rup (5000 + 100) PGSIZE - rdown 100 PGSIZE) / PGSIZE ∧
    (loadSegRO (fun o => 0x100000 + o) 0x800064 100 5000)[2 * 1 + 1]? =
      some (.page_map (0x100000 + (rdown 100 PGSIZE + 1 * PGSIZE))
        (rdown 0x800064 PGSIZE + 1 * PGSIZE) (PTE_U ||| PTE_P)) := by
  refine ⟨by decide, ?_⟩
  exact (C8_spawn_text_shared (fun o => 0x100000 + o) 0x800064 100 5000 1
    (by decide)).2.1

/-- **C3 (failing input).** A writable segment with a non-page-aligned file
offset (`p_offset = 1`, `p_filesz = 2`, `p_memsz = 2`, `p_va = 4097`, so
`PGOFF(p_offset) = PGOFF(p_va) = 1` as the ELF linker guarantees) over the
file bytes `[10, 20, 30]`: the child page receives byte `20 = file[1]` at
page offset 0, whereas the claim prescribes `10 = file[0]` there
(`wantedWByte`): `spawn` seeks to `p_offset` (line 133) but copies into
page frames based at `ROUNDDOWN(p_offset)` (lines 134, 141), shifting the
segment's bytes within the child pages whenever `p_offset % PGSIZE ≠ 0`. -/
theorem C3_spawn_writable_counterexample :
    ((loadSegW [10, 20, 30] 4097 1 2 2).getD 0 (0, [])).2.getD 0 0 = 20 ∧
    wantedWByte [10, 20, 30] 1 2 0 0 = 10 ∧
    (loadSegW [10, 20, 30] 4097 1 2 2).length = 1 ∧
    (1 : Nat) % PGSIZE ≠ 0 := by
  refine ⟨by decide, by decide, ?_, by decide⟩
  decide

/-! ### Aligned writable segments load correctly (supplementary)

For writable segments whose file offset *is* page aligned, the loop of
lines 129–153 does put every file byte at its prescribed place and zeroes
the bss tail, covering both the page-boundary and the mid-page
file/memory-size split. -/

theorem getD_append_ite (l₁ l₂ : List Nat) (j : Nat) :
    (l₁ ++ l₂).getD j 0 =
      if j < l₁.length then l₁.getD j 0 else l₂.getD (j - l₁.length) 0 := by
  rw [List.getD_eq_getElem?_getD, List.getElem?_append]
  split <;> rw [List.getD_eq_getElem?_getD]

theorem getD_take_ite (l : List Nat) (m j : Nat) :
    (l.take m).getD j 0 = if j < m then l.getD j 0 else 0 := by
  rw [List.getD_eq_getElem?_getD, List.getElem?_take]
  split
  · rw [List.getD_eq_getElem?_getD]
  · rfl

theorem getD_replicate_zero (n j : Nat) :
    (List.replicate n (0 : Nat)).getD j 0 = 0 := by
  rw [List.getD_eq_getElem?_getD]
  rcases lt_or_ge j n with h | h
  · simp [List.getElem?_replicate, h]
  · rw [List.getElem?_eq_none (by simpa using h)]
    rfl

theorem getD_drop_add (l : List Nat) (i j : Nat) :
    (l.drop i).getD j 0 = l.getD (i + j) 0 := by
  rw [List.getD_eq_getElem?_getD, List.getElem?_drop,
    List.getD_eq_getElem?_getD]

/-- Content of one page built by the writable-chunk loop, when the loop
cursor agrees with the chunk base (which `loadSegWGo_content` establishes
for aligned segments). -/
theorem loadSegWPage_content (file : List Nat) (limit cur i j : Nat)
    (hal : i % PGSIZE = 0) (hcur : i < limit → cur = i)
    (hfile : limit ≤ file.length) (hj : j < PGSIZE) :
    (loadSegWPage file limit cur i).1.getD j 0 =
      (if i + j < limit then file.getD (i + j) 0 else 0) := by
  rcases lt_or_ge i limit with hil | hil
  · rw [hcur hil]
    have hblen : ((file.drop i).take PGSIZE).length =
        min PGSIZE (file.length - i) := by simp
    simp only [loadSegWPage, if_pos hil]
    by_cases hb : i = rdown limit PGSIZE
    · -- the chunk containing the file-backed limit: tail re-zeroed
      have hli : limit - i < PGSIZE := by
        simp only [rdown, PGSIZE] at hb hal ⊢
        omega
      simp only [if_pos hb]
      rw [getD_append_ite]
      have htl : (((file.drop i).take PGSIZE ++
          List.replicate (PGSIZE - ((file.drop i).take PGSIZE).length) 0).take
            (limit - i)).length = limit - i := by
        rw [List.length_take, List.length_append, hblen,
          List.length_replicate]
        omega
      rw [htl]
      by_cases hjl : j < limit - i
      · rw [if_pos hjl, getD_take_ite, if_pos hjl, getD_append_ite, hblen,
          if_pos (by omega), getD_take_ite, if_pos hj, getD_drop_add]
        rw [if_pos (by omega)]
      · rw [if_neg hjl, getD_replicate_zero, if_neg (by omega)]
    · -- a chunk strictly before the limit chunk: full page of file bytes
      have hstep : i + PGSIZE ≤ limit := by
        simp only [rdown, PGSIZE] at hb hal ⊢
        omega
      rw [if_neg hb, getD_append_ite, hblen]
      have hfull : min PGSIZE (file.length - i) = PGSIZE := by omega
      rw [hfull, if_pos hj, getD_take_ite, if_pos hj, getD_drop_add,
        if_pos (by omega)]
  · simp only [loadSegWPage, if_neg (show ¬ i < limit by omega)]
    rw [getD_replicate_zero, if_neg (by omega)]

/-- The file cursor after a chunk strictly before the limit equals the next
chunk base (the `read` consumed exactly `PGSIZE` bytes). -/
theorem loadSegWPage_cursor (file : List Nat) (limit cur i : Nat)
    (hcur : i < limit → cur = i) (hfile : limit ≤ file.length)
    (hlt : i + PGSIZE < limit) :
    (loadSegWPage file limit cur i).2 = i + PGSIZE := by
  have hil : i < limit := by omega
  rw [hcur hil]
  simp only [loadSegWPage, if_pos hil]
  have hlen : ((file.drop i).take PGSIZE).length = PGSIZE := by
    simp
    omega
  simp [hlen]

theorem loadSegWGo_content (file : List Nat) (limit va start : Nat)
    (hfile : limit ≤ file.length) :
    ∀ (n i cur k j : Nat), i % PGSIZE = 0 → start ≤ i →
      (i < limit → cur = i) → k < n → j < PGSIZE →
      ((loadSegWGo file limit va start n i cur).getD k (0, [])).2.getD j 0 =
        (if i + k * PGSIZE + j < limit
         then file.getD (i + k * PGSIZE + j) 0 else 0) ∧
      ((loadSegWGo file limit va start n i cur).getD k (0, [])).1 =
        va + (i - start) + k * PGSIZE := by
  intro n
  induction n with
  | zero => intro i cur k j _ _ _ hk _; omega
  | succ m ih =>
      intro i cur k j hal hsi hcur hk hj
      cases k with
      | zero =>
          rw [loadSegWGo]
          constructor
          · rw [List.getD_cons_zero]
            have h := loadSegWPage_content file limit cur i j hal hcur
              hfile hj
            simpa using h
          · rw [List.getD_cons_zero]
            simp only
            omega
      | succ k' =>
          rw [loadSegWGo]
          simp only [List.getD_cons_succ]
          by_cases hnext : i + PGSIZE < limit
          · have hcur' : i + PGSIZE < limit →
                (loadSegWPage file limit cur i).2 = i + PGSIZE :=
              fun _ => loadSegWPage_cursor file limit cur i hcur hfile hnext
            have h := ih (i + PGSIZE) ((loadSegWPage file limit cur i).2)
              k' j (by simp only [PGSIZE] at hal ⊢; omega) (by omega)
              hcur' (by omega) hj
            have e1 : i + PGSIZE + k' * PGSIZE = i + (k' + 1) * PGSIZE := by
              ring_nf
            have e2 : va + (i + PGSIZE - start) + k' * PGSIZE =
                va + (i - start) + (k' + 1) * PGSIZE := by
              have : (k' + 1) * PGSIZE = k' * PGSIZE + PGSIZE := by ring
              omega
            rw [e1, e2] at h
            exact h
          · have hcur' : i + PGSIZE < limit →
                (loadSegWPage file limit cur i).2 = i + PGSIZE :=
              fun hcontra => absurd hcontra hnext
            have h := ih (i + PGSIZE) ((loadSegWPage file limit cur i).2)
              k' j (by simp only [PGSIZE] at hal ⊢; omega) (by omega)
              hcur' (by omega) hj
            have e1 : i + PGSIZE + k' * PGSIZE = i + (k' + 1) * PGSIZE := by
              ring_nf
            have e2 : va + (i + PGSIZE - start) + k' * PGSIZE =
                va + (i - start) + (k' + 1) * PGSIZE := by
              have : (k' + 1) * PGSIZE = k' * PGSIZE + PGSIZE := by ring
              omega
            rw [e1, e2] at h
            exact h

/-- For a writable segment with page-aligned file offset, every byte of
every child page is exactly as the claim prescribes (`wantedWByte`): the
file's byte before the file-backed limit — whether that limit falls on a
page boundary or mid-page — and zero beyond it; and page `k` is mapped at
the child address `ROUNDDOWN(p_va) + k*PGSIZE`. -/
theorem loadSegW_aligned_spec (file : List Nat)
    (p_va p_offset p_filesz p_memsz : Nat)
    (hal : p_offset % PGSIZE = 0) (hfile : p_offset + p_filesz ≤ file.length)
    (k j : Nat)
    (hk : k < (rup (p_memsz + p_offset) PGSIZE - rdown p_offset PGSIZE) /
      PGSIZE)
    (hj : j < PGSIZE) :
    ((loadSegW file p_va p_offset p_filesz p_memsz).getD k (0, [])).2.getD
        j 0 = wantedWByte file p_offset p_filesz k j ∧
    ((loadSegW file p_va p_offset p_filesz p_memsz).getD k (0, [])).1 =
      rdown p_va PGSIZE + k * PGSIZE := by
  have hrd : rdown p_offset PGSIZE = p_offset := by
    simp [rdown, hal]
  have h := loadSegWGo_content file (p_offset + p_filesz)
    (rdown p_va PGSIZE) (rdown p_offset PGSIZE) hfile
    ((rup (p_memsz + p_offset) PGSIZE - rdown p_offset PGSIZE) / PGSIZE)
    (rdown p_offset PGSIZE) p_offset k j
    (by rw [hrd]; exact hal) (le_refl _) (fun _ => hrd.symm) hk hj
  rw [Nat.sub_self] at h
  constructor
  · rw [show ((loadSegW file p_va p_offset p_filesz p_memsz).getD
        k (0, [])).2 = ((loadSegWGo file (p_offset + p_filesz)
          (rdown p_va PGSIZE) (rdown p_offset PGSIZE)
          ((rup (p_memsz + p_offset) PGSIZE - rdown p_offset PGSIZE) /
            PGSIZE) (rdown p_offset PGSIZE) p_offset).getD k (0, [])).2
      from rfl]
    rw [h.1, wantedWByte]
  · rw [show ((loadSegW file p_va p_offset p_filesz p_memsz).getD
        k (0, [])).1 = ((loadSegWGo file (p_offset + p_filesz)
          (rdown p_va PGSIZE) (rdown p_offset PGSIZE)
          ((rup (p_memsz + p_offset) PGSIZE - rdown p_offset PGSIZE) /
            PGSIZE) (rdown p_offset PGSIZE) p_offset).getD k (0, [])).1
      from rfl]
    rw [h.2]
    omega

/-! ## Stack builder (`init_stack`, `src/unnamed/part_000` lines 181–263)

The scratch page is a byte-addressed memory over parent-space addresses
(`Int`, so that the layout computations of lines 200–207 can be followed
exactly, including their underflow checks); a `uintptr_t` store is four
little-endian byte stores as on the target machine. -/

/-- Byte-addressed memory. -/
def Mem : Type := Int → Nat

/-- Single byte store. -/
def store8 (m : Mem) (a : Int) (v : Nat) : Mem :=
  fun x => if x = a then v else m x

/-- Little-endian 32-bit store (a C `uintptr_t` write on x86). -/
def store32 (m : Mem) (a : Int) (v : Int) : Mem :=
  store8 (store8 (store8 (store8 m a (v % 256).toNat)
    (a + 1) ((v / 256) % 256).toNat)
    (a + 2) ((v / 65536) % 256).toNat)
    (a + 3) ((v / 16777216) % 256).toNat

/-- Little-endian 32-bit read-back. -/
def load32 (m : Mem) (a : Int) : Int :=
  (m a : Int) + 256 * m (a + 1) + 65536 * m (a + 2) +
    16777216 * m (a + 3)

/-- The byte copies performed by `strcpy` before the terminator. -/
def storeBytes : Mem → Int → List Nat → Mem
  | m, _, [] => m
  | m, a, b :: bs => storeBytes (store8 m a b) (a + 1) bs

/-- `strcpy(dst, s)` for a C string `s` (its bytes, NUL-free, then the
terminating 0). -/
def strcpyM (m : Mem) (a : Int) (s : List Nat) : Mem :=
  store8 (storeBytes m a s) (a + s.length) 0

theorem store8_same (m : Mem) (a : Int) (v : Nat) : store8 m a v a = v := by
  simp [store8]

theorem store8_other (m : Mem) (a : Int) (v : Nat) (x : Int) (h : x ≠ a) :
    store8 m a v x = m x := by
  simp [store8, h]

theorem store32_frame (m : Mem) (a v : Int) (x : Int)
    (h : x < a ∨ a + 4 ≤ x) : store32 m a v x = m x := by
  unfold store32
  rw [store8_other _ _ _ _ (by omega), store8_other _ _ _ _ (by omega),
    store8_other _ _ _ _ (by omega), store8_other _ _ _ _ (by omega)]

theorem load32_congr (m' m : Mem) (a : Int)
    (h0 : m' a = m a) (h1 : m' (a + 1) = m (a + 1))
    (h2 : m' (a + 2) = m (a + 2)) (h3 : m' (a + 3) = m (a + 3)) :
    load32 m' a = load32 m a := by
  simp [load32, h0, h1, h2, h3]

theorem load32_store32 (m : Mem) (a v : Int) (h0 : 0 ≤ v)
    (h1 : v < 4294967296) : load32 (store32 m a v) a = v := by
  unfold load32 store32
  rw [store8_other _ _ _ _ (by omega), store8_other _ _ _ _ (by omega),
    store8_other _ _ _ _ (by omega), store8_same,
    store8_other _ _ _ _ (by omega), store8_other _ _ _ _ (by omega),
    store8_same,
    store8_other _ _ _ _ (by omega), store8_same, store8_same]
  rw [Int.toNat_of_nonneg (by omega), Int.toNat_of_nonneg (by omega),
    Int.toNat_of_nonneg (by omega), Int.toNat_of_nonneg (by omega)]
  omega

theorem storeBytes_frame :
    ∀ (s : List Nat) (m : Mem) (a x : Int),
      (x < a ∨ a + s.length ≤ x) → storeBytes m a s x = m x := by
  intro s
  induction s with
  | nil => intro m a x _; rfl
  | cons b bs ih =>
      intro m a x h
      simp only [List.length_cons] at h
      push_cast at h
      rw [storeBytes, ih _ _ _ (by omega),
        store8_other _ _ _ _ (by omega)]

theorem storeBytes_byte :
    ∀ (s : List Nat) (m : Mem) (a : Int) (j : Nat), j < s.length →
      storeBytes m a s (a + j) = s.getD j 0 := by
  intro s
  induction s with
  | nil => intro m a j hj; simp at hj
  | cons b bs ih =>
      intro m a j hj
      cases j with
      | zero =>
          rw [storeBytes, storeBytes_frame _ _ _ _ (by simp)]
          simpa using store8_same m a b
      | succ j' =>
          rw [storeBytes]
          have e : a + (↑(j' + 1) : Int) = (a + 1) + j' := by push_cast; omega
          rw [e, ih _ _ _ (by simpa using hj)]
          simp

theorem strcpyM_frame (m : Mem) (a : Int) (s : List Nat) (x : Int)
    (h : x < a ∨ a + s.length + 1 ≤ x) : strcpyM m a s x = m x := by
  rw [strcpyM, store8_other _ _ _ _ (by omega),
    storeBytes_frame _ _ _ _ (by omega)]

theorem strcpyM_byte (m : Mem) (a : Int) (s : List Nat) (j : Nat)
    (hj : j < s.length) : strcpyM m a s (a + j) = s.getD j 0 := by
  rw [strcpyM, store8_other _ _ _ _ (by omega),
    storeBytes_byte _ _ _ _ hj]

theorem strcpyM_nul (m : Mem) (a : Int) (s : List Nat) :
    strcpyM m a s (a + s.length) = 0 := by
  rw [strcpyM, store8_same]

/-- `UTEMP2USTACK(addr)` (`src/unnamed/part_000` line 4): the constant
offset translating a parent-scratch address to the child's top-of-stack
page: `addr + (USTACKTOP - PGSIZE) - UTEMP`. -/
def UTEMP2USTACK (addr : Int) : Int :=
  addr + ((USTACKTOP : Int) - (PGSIZE : Int)) - (UTEMP : Int)

/-- `string_size` (`src/unnamed/part_000` lines 191–193): the sum of
`strlen(argv[i]) + 1` over the arguments. -/
def sizeBytes : List (List Nat) → Int
  | [] => 0
  | s :: rest => ((s.length : Int) + 1) + sizeBytes rest

/-- Total string byte size of the first `k` arguments. -/
def prefixBytes (args : List (List Nat)) (k : Nat) : Int :=
  sizeBytes (args.take k)

/-- 32-bit wrap of the i386 pointer / `size_t` arithmetic: the machine
value of an address computation, reduced to `[0, 2^32)`. -/
def wrap32 (a : Int) : Int := a % 4294967296

/-- `string_store = (char*) UTEMP + PGSIZE - string_size` (line 200), in
the source's 32-bit pointer arithmetic: for string sizes above
`UTEMP + PGSIZE` the machine value wraps to a huge address rather than
going negative. -/
def string_store_base (argv : List (List Nat)) : Int :=
  wrap32 ((UTEMP : Int) + (PGSIZE : Int) - sizeBytes argv)

/-- `ROUNDDOWN(·, 4)` on an address. -/
def rdown4 (a : Int) : Int := a - a % 4

/-- `argv_store = (uintptr_t*) (ROUNDDOWN(string_store, 4) - 4 * (argc+1))`
(line 203), again in 32-bit arithmetic. -/
def argv_store_base (argv : List (List Nat)) : Int :=
  wrap32 (rdown4 (string_store_base argv) - 4 * ((argv.length : Int) + 1))

/-- The layout check of line 207,
`(void*) (argv_store - 2) < (void*) UTEMP`, as the 32-bit machine
evaluates it.  When the layout computation underflows, the wrapped values
are huge addresses and this comparison is false — the check is defeated
(see `C7_init_stack_counterexample`). -/
def stack_overflows (argv : List (List Nat)) : Prop :=
  wrap32 (argv_store_base argv - 8) < (UTEMP : Int)

instance (argv : List (List Nat)) : Decidable (stack_overflows argv) := by
  unfold stack_overflows
  infer_instance

/-- The spec's notion that the strings, the alignment padding, the
`argc + 1` argument pointers and the two trailing words all fit inside the
single stack page — stated in exact (unwrapped) arithmetic, to be compared
with the source's 32-bit check `stack_overflows`.  On argv for which the
layout computation stays inside `[0, 2^32)` the two notions coincide
(`C7_init_stack_bounds`); on larger argv they do not
(`C7_init_stack_counterexample`). -/
def stack_fits_spec (argv : List (List Nat)) : Prop :=
  (UTEMP : Int) ≤
    rdown4 ((UTEMP : Int) + (PGSIZE : Int) - sizeBytes argv) -
      4 * ((argv.length : Int) + 1) - 8

instance (argv : List (List Nat)) : Decidable (stack_fits_spec argv) := by
  unfold stack_fits_spec
  infer_instance

/-- The loop of lines 241–245: for each argument, store the
child-translated string pointer into `argv_store[i]`, `strcpy` the string
bytes to `string_store`, and advance `string_store` past the copied
terminator. -/
def writeArgs (as : Int) : List (List Nat) → Int → Int → Mem → Mem
  | [], _, _, m => m
  | s :: rest, i, ss, m =>
      writeArgs as rest (i + 1) (ss + ((s.length : Int) + 1))
        (strcpyM (store32 m (as + 4 * i) (UTEMP2USTACK ss)) ss s)

theorem sizeBytes_nonneg : ∀ (args : List (List Nat)), 0 ≤ sizeBytes args := by
  intro args
  induction args with
  | nil => simp [sizeBytes]
  | cons s rest ih => rw [sizeBytes]; positivity

/-- Addresses below the pointer-array slot `i`, or in the gap between the
end of the pointer array and the string area, are untouched by the loop. -/
theorem writeArgs_frame (as : Int) :
    ∀ (args : List (List Nat)) (i ss : Int) (m : Mem) (x : Int),
      as + 4 * (i + (args.length : Int)) ≤ ss →
      (x < as + 4 * i ∨
        (as + 4 * (i + (args.length : Int)) ≤ x ∧ x < ss)) →
      writeArgs as args i ss m x = m x := by
  intro args
  induction args with
  | nil => intro i ss m x _ _; rfl
  | cons s rest ih =>
      intro i ss m x hord hx
      simp only [List.length_cons] at hord hx
      push_cast at hord hx
      rw [writeArgs]
      rw [ih _ _ _ _ (by omega) (by omega)]
      rw [strcpyM_frame _ _ _ _ (by omega), store32_frame _ _ _ _ (by omega)]

theorem prefixBytes_zero (args : List (List Nat)) :
    prefixBytes args 0 = 0 := by
  simp [prefixBytes, sizeBytes]

theorem prefixBytes_cons_succ (s : List Nat) (rest : List (List Nat))
    (k : Nat) : prefixBytes (s :: rest) (k + 1) =
      ((s.length : Int) + 1) + prefixBytes rest k := by
  simp [prefixBytes, List.take_succ_cons, sizeBytes]

/-- Child-space pointers written by the loop stay inside the 32-bit
address space: the translated address of any in-page scratch location. -/
theorem UTEMP2USTACK_bounds (x : Int) (h0 : 0 ≤ x)
    (h1 : x ≤ (UTEMP : Int) + (PGSIZE : Int)) :
    0 ≤ UTEMP2USTACK x ∧ UTEMP2USTACK x < 4294967296 := by
  unfold UTEMP2USTACK
  simp only [USTACKTOP, PGSIZE, UTEMP] at *
  constructor <;> omega

/-- After the loop, pointer-array slot `k` holds the child-translated
address of string `k`'s first byte. -/
theorem writeArgs_load (as : Int) :
    ∀ (args : List (List Nat)) (i ss : Int) (m : Mem) (k : Nat),
      as + 4 * (i + (args.length : Int)) ≤ ss →
      0 ≤ ss → ss + sizeBytes args ≤ (UTEMP : Int) + (PGSIZE : Int) →
      k < args.length →
      load32 (writeArgs as args i ss m) (as + 4 * (i + (k : Int))) =
        UTEMP2USTACK (ss + prefixBytes args k) := by
  intro args
  induction args with
  | nil => intro i ss m k _ _ _ hk; simp at hk
  | cons s rest ih =>
      intro i ss m k hord hlow hhigh hk
      simp only [List.length_cons] at hord hk
      push_cast at hord
      have hsz : sizeBytes (s :: rest) =
          ((s.length : Int) + 1) + sizeBytes rest := rfl
      have hrest : 0 ≤ sizeBytes rest := sizeBytes_nonneg rest
      rw [writeArgs]
      cases k with
      | zero =>
          have e : as + 4 * (i + ((0 : Nat) : Int)) = as + 4 * i := by
            push_cast; ring
          rw [e, prefixBytes_zero, add_zero]
          have hfr : ∀ t : Int, as + 4 * i ≤ t → t ≤ as + 4 * i + 3 →
              writeArgs as rest (i + 1) (ss + ((s.length : Int) + 1))
                (strcpyM (store32 m (as + 4 * i) (UTEMP2USTACK ss)) ss s)
                t =
              strcpyM (store32 m (as + 4 * i) (UTEMP2USTACK ss)) ss s t := by
            intro t h1 h2
            exact writeArgs_frame as rest (i + 1) _ _ t (by omega)
              (Or.inl (by omega))
          have hfr2 : ∀ t : Int, as + 4 * i ≤ t → t ≤ as + 4 * i + 3 →
              strcpyM (store32 m (as + 4 * i) (UTEMP2USTACK ss)) ss s t =
              store32 m (as + 4 * i) (UTEMP2USTACK ss) t := by
            intro t h1 h2
            exact strcpyM_frame _ _ _ _ (Or.inl (by omega))
          rw [load32_congr _ _ _
            (hfr _ (by omega) (by omega)) (hfr _ (by omega) (by omega))
            (hfr _ (by omega) (by omega)) (hfr _ (by omega) (by omega))]
          rw [load32_congr _ _ _
            (hfr2 _ (by omega) (by omega)) (hfr2 _ (by omega) (by omega))
            (hfr2 _ (by omega) (by omega)) (hfr2 _ (by omega) (by omega))]
          have hb := UTEMP2USTACK_bounds ss hlow (by omega)
          exact load32_store32 _ _ _ hb.1 hb.2
      | succ k' =>
          have e : as + 4 * (i + (((k' + 1 : Nat)) : Int)) =
              as + 4 * ((i + 1) + (k' : Int)) := by push_cast; ring
          rw [e, ih (i + 1) (ss + ((s.length : Int) + 1)) _ k'
            (by omega) (by omega) (by omega) (by omega)]
          rw [prefixBytes_cons_succ]
          ring_nf

/-- After the loop, the bytes of string `k` (plus its NUL terminator) sit
at the scratch address recorded in pointer slot `k`. -/
theorem writeArgs_str (as : Int) :
    ∀ (args : List (List Nat)) (i ss : Int) (m : Mem) (k j : Nat),
      as + 4 * (i + (args.length : Int)) ≤ ss →
      k < args.length → j ≤ (args.getD k []).length →
      writeArgs as args i ss m (ss + prefixBytes args k + (j : Int)) =
        (if j = (args.getD k []).length then 0
         else (args.getD k []).getD j 0) := by
  intro args
  induction args with
  | nil => intro i ss m k j _ hk _; simp at hk
  | cons s rest ih =>
      intro i ss m k j hord hk hj
      simp only [List.length_cons] at hord hk
      push_cast at hord
      rw [writeArgs]
      cases k with
      | zero =>
          simp only [List.getD_cons_zero] at hj ⊢
          rw [prefixBytes_zero, add_zero]
          have hfr : writeArgs as rest (i + 1) (ss + ((s.length : Int) + 1))
              (strcpyM (store32 m (as + 4 * i) (UTEMP2USTACK ss)) ss s)
              (ss + (j : Int)) =
              strcpyM (store32 m (as + 4 * i) (UTEMP2USTACK ss)) ss s
                (ss + (j : Int)) :=
            writeArgs_frame as rest (i + 1) _ _ _ (by omega)
              (Or.inr (by constructor <;> omega))
          rw [hfr]
          by_cases hje : j = s.length
          · rw [if_pos hje, hje, strcpyM_nul]
          · rw [if_neg hje, strcpyM_byte _ _ _ _ (by omega)]
      | succ k' =>
          simp only [List.getD_cons_succ] at hj ⊢
          rw [prefixBytes_cons_succ]
          have e : ss + (((s.length : Int) + 1) + prefixBytes rest k') +
              (j : Int) =
              (ss + ((s.length : Int) + 1)) + prefixBytes rest k' +
                (j : Int) := by ring
          rw [e, ih (i + 1) (ss + ((s.length : Int) + 1)) _ k' j
            (by omega) (by omega) hj]

/-- Return values of the three substrate calls `init_stack` makes
(`sys_page_alloc` line 211, `sys_page_map` line 253, `sys_page_unmap`
line 255); negative means failure. -/
structure StkOracle where
  allocRes : Int
  mapRes : Int
  unmapRes : Int

/-- Substrate calls issued by `init_stack`, in order. -/
inductive StkEv where
  /-- `sys_page_alloc(0, va, perm)` -/
  | page_alloc (va : Nat) (perm : Nat)
  /-- `sys_page_map(0, UTEMP, child, dstVa, perm)` -/
  | page_map (dstVa : Nat) (perm : Nat)
  /-- `sys_page_unmap(0, va)` -/
  | page_unmap (va : Nat)
  deriving DecidableEq

/-- Result of `init_stack`: the returned value (`ok` is `return 0`), the
value written through `init_esp` (if that write was reached), the final
bytes of the scratch page, and the substrate calls made. -/
structure StkResult where
  res : Except Int Unit
  esp : Option Int
  mem : Mem
  evs : List StkEv

/-- `init_stack` (`src/unnamed/part_000` lines 181–263): compute the
string and pointer-array bases (lines 191–203); fail with `-E_NO_MEM`
before any substrate call if the layout does not fit the page (line 207);
allocate the scratch page (line 211); run the write loop (lines 241–245);
null-terminate the pointer array and push the two trailing words `argv`
and `argc` (lines 246–248); set `*init_esp` (line 249); map the page into
the child at `USTACKTOP - PGSIZE` and unmap it from the parent (lines
253–256), with the error path unmapping from the parent and propagating
the failing call's error (lines 260–262). -/
def init_stack (argv : List (List Nat)) (o : StkOracle) : StkResult :=
  let ss := string_store_base argv
  let as := argv_store_base argv
  if wrap32 (as - 8) < (UTEMP : Int) then
    { res := .error (-E_NO_MEM), esp := none, mem := fun _ => 0, evs := [] }
  else if o.allocRes < 0 then
    { res := .error o.allocRes, esp := none, mem := fun _ => 0,
      evs := [.page_alloc UTEMP (PTE_P ||| PTE_U ||| PTE_W)] }
  else
    let m0 := writeArgs as argv 0 ss (fun _ => 0)
    let m1 := store32 m0 (as + 4 * (argv.length : Int)) 0
    let m2 := store32 m1 (as - 4) (UTEMP2USTACK as)
    let m3 := store32 m2 (as - 8) (argv.length : Int)
    let esp := UTEMP2USTACK (as - 8)
    if o.mapRes < 0 then
      { res := .error o.mapRes, esp := some esp, mem := m3,
        evs := [.page_alloc UTEMP (PTE_P ||| PTE_U ||| PTE_W),
                .page_map (USTACKTOP - PGSIZE) (PTE_P ||| PTE_U ||| PTE_W),
                .page_unmap UTEMP] }
    else if o.unmapRes < 0 then
      { res := .error o.unmapRes, esp := some esp, mem := m3,
        evs := [.page_alloc UTEMP (PTE_P ||| PTE_U ||| PTE_W),
                .page_map (USTACKTOP - PGSIZE) (PTE_P ||| PTE_U ||| PTE_W),
                .page_unmap UTEMP, .page_unmap UTEMP] }
    else
      { res := .ok (), esp := some esp, mem := m3,
        evs := [.page_alloc UTEMP (PTE_P ||| PTE_U ||| PTE_W),
                .page_map (USTACKTOP - PGSIZE) (PTE_P ||| PTE_U ||| PTE_W),
                .page_unmap UTEMP] }

/-! ### Stack builder theorems -/

theorem sizeBytes_replicate_nil :
    ∀ n : Nat, sizeBytes (List.replicate n ([] : List Nat)) = (n : Int) := by
  intro n
  induction n with
  | zero => rfl
  | succ k ih =>
      rw [List.replicate_succ, sizeBytes, ih]
      push_cast [List.length_nil]
      ring

/-- The run of `init_stack` when the line-207 check passes and all three
substrate calls succeed: it returns 0 after alloc, map and unmap. -/
theorem init_stack_ok_of_no_overflow (argv : List (List Nat))
    (o : StkOracle)
    (hov : ¬ (wrap32 (argv_store_base argv - 8) < (UTEMP : Int)))
    (h1 : 0 ≤ o.allocRes) (h2 : 0 ≤ o.mapRes) (h3 : 0 ≤ o.unmapRes) :
    (init_stack argv o).res = .ok () ∧
    (init_stack argv o).evs =
      [.page_alloc UTEMP (PTE_P ||| PTE_U ||| PTE_W),
       .page_map (USTACKTOP - PGSIZE) (PTE_P ||| PTE_U ||| PTE_W),
       .page_unmap UTEMP] := by
  constructor <;>
    simp [init_stack, if_neg hov, if_neg (not_lt.mpr h1),
      if_neg (not_lt.mpr h2), if_neg (not_lt.mpr h3)]

/-- **C7 (counterexample).** Two argv on which the claim as stated fails,
because the source's 32-bit layout arithmetic (lines 200–207) wraps and
defeats the line-207 check.  (a) One argument of 4 198 400 bytes: the
string size exceeds `UTEMP + PGSIZE`, so `string_store` wraps to
`0xFFFFFFFF`; (b) 2 097 152 empty-string arguments: the pointer array of
`4 * (argc + 1)` bytes exceeds the rounded string base, so `argv_store`
wraps.  In both cases the argv plainly does not fit the page
(`¬ stack_fits_spec`), yet the check passes and `init_stack` proceeds to
`sys_page_alloc` — it neither returns `-E_NO_MEM` nor refrains from
allocating, contradicting the claim on these inputs.  (The real program
then faults writing through the wrapped pointers, never producing the
claimed error.) -/
theorem C7_init_stack_counterexample :
    (¬ stack_fits_spec [List.replicate 4198400 65] ∧
     (init_stack [List.replicate 4198400 65] ⟨0, 0, 0⟩).res ≠
       .error (-E_NO_MEM) ∧
     (init_stack [List.replicate 4198400 65] ⟨0, 0, 0⟩).evs.head? =
       some (.page_alloc UTEMP (PTE_P ||| PTE_U ||| PTE_W))) ∧
    (¬ stack_fits_spec (List.replicate 2097152 []) ∧
     (init_stack (List.replicate 2097152 []) ⟨0, 0, 0⟩).res ≠
       .error (-E_NO_MEM) ∧
     (init_stack (List.replicate 2097152 []) ⟨0, 0, 0⟩).evs.head? =
       some (.page_alloc UTEMP (PTE_P ||| PTE_U ||| PTE_W))) := by
  have hsA : sizeBytes [List.replicate 4198400 65] = 4198401 := by
    rw [sizeBytes, sizeBytes, List.length_replicate]
    norm_num
  have hlA : (([List.replicate 4198400 65].length : Nat) : Int) =
      ((1 : Nat) : Int) := rfl
  have hchkA : ¬ (wrap32 (argv_store_base [List.replicate 4198400 65] - 8) <
      (UTEMP : Int)) := by
    unfold argv_store_base string_store_base wrap32 rdown4
    rw [hsA, hlA]
    simp only [UTEMP, PGSIZE]
    decide
  have hsB : sizeBytes (List.replicate 2097152 ([] : List Nat)) =
      ((2097152 : Nat) : Int) := sizeBytes_replicate_nil 2097152
  have hlB : (((List.replicate 2097152 ([] : List Nat)).length : Nat) :
      Int) = ((2097152 : Nat) : Int) := by
    rw [List.length_replicate]
  have hchkB : ¬ (wrap32 (argv_store_base (List.replicate 2097152 []) - 8) <
      (UTEMP : Int)) := by
    unfold argv_store_base string_store_base wrap32 rdown4
    rw [hsB, hlB]
    simp only [UTEMP, PGSIZE]
    decide
  have hrunA := init_stack_ok_of_no_overflow [List.replicate 4198400 65]
    ⟨0, 0, 0⟩ hchkA (by decide) (by decide) (by decide)
  have hrunB := init_stack_ok_of_no_overflow (List.replicate 2097152 [])
    ⟨0, 0, 0⟩ hchkB (by decide) (by decide) (by decide)
  refine ⟨⟨?_, ?_, ?_⟩, ⟨?_, ?_, ?_⟩⟩
  · unfold stack_fits_spec rdown4
    rw [hsA, hlA]
    simp only [UTEMP, PGSIZE]
    decide
  · rw [hrunA.1]
    exact fun h => Except.noConfusion h
  · rw [hrunA.2]
    rfl
  · unfold stack_fits_spec rdown4
    rw [hsB, hlB]
    simp only [UTEMP, PGSIZE]
    decide
  · rw [hrunB.1]
    exact fun h => Except.noConfusion h
  · rw [hrunB.2]
    rfl

/-- **C7 (amended).** `init_stack` error handling, for argv whose 32-bit
layout arithmetic does not wrap (total string bytes at most
`UTEMP + PGSIZE`, and the pointer array plus two trailing words at most
the rounded string base — for larger argv the wrapped pointer arithmetic
defeats the line-207 check, see `C7_init_stack_counterexample`): when the
strings, alignment padding, pointer array and two trailing words do not
all fit in the single page, `init_stack` fails with `-E_NO_MEM` *before
any substrate call* — no page is allocated or mapped; in that regime the
line-207 check is exactly that arithmetic condition.  After successful
construction, a failing map-into-child leaves the trace ending with the
cleanup unmap of the parent scratch page and propagates the map error; a
failing unmap-from-parent triggers the cleanup unmap again and propagates
the unmap error. -/
theorem C7_init_stack_bounds (argv : List (List Nat)) (o : StkOracle) :
    (sizeBytes argv ≤ (UTEMP : Int) + (PGSIZE : Int) →
     4 * ((argv.length : Int) + 1) + 8 ≤
        rdown4 ((UTEMP : Int) + (PGSIZE : Int) - sizeBytes argv) →
     ¬ stack_fits_spec argv →
       (init_stack argv o).res = .error (-E_NO_MEM) ∧
       (init_stack argv o).evs = []) ∧
    (sizeBytes argv ≤ (UTEMP : Int) + (PGSIZE : Int) →
     4 * ((argv.length : Int) + 1) + 8 ≤
        rdown4 ((UTEMP : Int) + (PGSIZE : Int) - sizeBytes argv) →
       (stack_overflows argv ↔
         (PGSIZE : Int) < sizeBytes argv + string_store_base argv % 4 +
           4 * ((argv.length : Int) + 1) + 8)) ∧
    (¬ stack_overflows argv → 0 ≤ o.allocRes → o.mapRes < 0 →
       (init_stack argv o).res = .error o.mapRes ∧
       (init_stack argv o).evs =
         [.page_alloc UTEMP (PTE_P ||| PTE_U ||| PTE_W),
          .page_map (USTACKTOP - PGSIZE) (PTE_P ||| PTE_U ||| PTE_W),
          .page_unmap UTEMP]) ∧
    (¬ stack_overflows argv → 0 ≤ o.allocRes → 0 ≤ o.mapRes →
      o.unmapRes < 0 →
       (init_stack argv o).res = .error o.unmapRes ∧
       (init_stack argv o).evs =
         [.page_alloc UTEMP (PTE_P ||| PTE_U ||| PTE_W),
          .page_map (USTACKTOP - PGSIZE) (PTE_P ||| PTE_U ||| PTE_W),
          .page_unmap UTEMP, .page_unmap UTEMP]) := by
  have hS : 0 ≤ sizeBytes argv := sizeBytes_nonneg argv
  refine ⟨?_, ?_, ?_, ?_⟩
  · intro h1 h2 hnf
    have hov : wrap32 (argv_store_base argv - 8) < (UTEMP : Int) := by
      unfold stack_fits_spec at hnf
      unfold argv_store_base string_store_base wrap32
      unfold rdown4 at *
      simp only [UTEMP, PGSIZE] at *
      omega
    constructor <;> simp [init_stack, hov]
  · intro h1 h2
    unfold stack_overflows argv_store_base string_store_base wrap32
    unfold rdown4 at *
    simp only [UTEMP, PGSIZE] at *
    omega
  · intro hov halloc hmap
    unfold stack_overflows at hov
    constructor <;>
      simp [init_stack, if_neg hov, if_neg (not_lt.mpr halloc), hmap]
  · intro hov halloc hmap hunmap
    unfold stack_overflows at hov
    constructor <;>
      simp [init_stack, if_neg hov, if_neg (not_lt.mpr halloc),
        if_neg (not_lt.mpr hmap), hunmap]

/-- **C6.** For an argv that fits the page, the completed stack page holds,
from high addresses down: the argument strings (each string `k`'s bytes
followed by its NUL at scratch address `string_store + prefixBytes k`); a
4-byte-aligned array of `argc` pointers, slot `k` holding string `k`'s
address *translated to the child's coordinate space by the constant offset
`(USTACKTOP - PGSIZE) - UTEMP`* (`UTEMP2USTACK`), terminated by a null
pointer; and two trailing words holding the translated `argv` pointer and
`argc`.  `*init_esp` receives the child-relative address of the two
trailing words, the function returns 0, and the trace is exactly
alloc-at-`UTEMP`, map-into-child at `USTACKTOP - PGSIZE`, unmap-from-parent. -/
theorem C6_init_stack_layout (argv : List (List Nat)) (o : StkOracle)
    (hfit : stack_fits_spec argv) (halloc : 0 ≤ o.allocRes)
    (hmap : 0 ≤ o.mapRes) (hunmap : 0 ≤ o.unmapRes) :
    (∀ k : Nat, k < argv.length →
       load32 (init_stack argv o).mem
           (argv_store_base argv + 4 * (k : Int)) =
         UTEMP2USTACK (string_store_base argv + prefixBytes argv k)) ∧
    (∀ k j : Nat, k < argv.length → j ≤ (argv.getD k []).length →
       (init_stack argv o).mem
           (string_store_base argv + prefixBytes argv k + (j : Int)) =
         (if j = (argv.getD k []).length then 0
          else (argv.getD k []).getD j 0)) ∧
    load32 (init_stack argv o).mem
        (argv_store_base argv + 4 * (argv.length : Int)) = 0 ∧
    load32 (init_stack argv o).mem (argv_store_base argv - 4) =
      UTEMP2USTACK (argv_store_base argv) ∧
    load32 (init_stack argv o).mem (argv_store_base argv - 8) =
      (argv.length : Int) ∧
    argv_store_base argv % 4 = 0 ∧
    (init_stack argv o).esp =
      some (UTEMP2USTACK (argv_store_base argv - 8)) ∧
    (init_stack argv o).res = .ok () ∧
    (init_stack argv o).evs =
      [.page_alloc UTEMP (PTE_P ||| PTE_U ||| PTE_W),
       .page_map (USTACKTOP - PGSIZE) (PTE_P ||| PTE_U ||| PTE_W),
       .page_unmap UTEMP] := by
  have hS : 0 ≤ sizeBytes argv := sizeBytes_nonneg argv
  have hssw : string_store_base argv =
      (UTEMP : Int) + (PGSIZE : Int) - sizeBytes argv := by
    unfold stack_fits_spec rdown4 at hfit
    unfold string_store_base wrap32
    simp only [UTEMP, PGSIZE] at *
    omega
  have hasw : argv_store_base argv =
      rdown4 ((UTEMP : Int) + (PGSIZE : Int) - sizeBytes argv) -
        4 * ((argv.length : Int) + 1) := by
    unfold stack_fits_spec at hfit
    unfold argv_store_base wrap32
    rw [hssw]
    unfold rdown4 at *
    simp only [UTEMP, PGSIZE] at *
    omega
  have key : argv_store_base argv + 4 * ((argv.length : Int) + 1) ≤
        string_store_base argv ∧
      0 ≤ string_store_base argv ∧
      string_store_base argv + sizeBytes argv =
        (UTEMP : Int) + (PGSIZE : Int) ∧
      argv_store_base argv % 4 = 0 ∧
      (argv.length : Int) < (PGSIZE : Int) ∧
      0 ≤ argv_store_base argv ∧
      argv_store_base argv ≤ (UTEMP : Int) + (PGSIZE : Int) := by
    rw [hssw, hasw]
    unfold stack_fits_spec rdown4 at hfit
    unfold rdown4
    simp only [UTEMP, PGSIZE] at *
    omega
  have hcheck : ¬ (wrap32 (argv_store_base argv - 8) < (UTEMP : Int)) := by
    rw [hasw]
    unfold stack_fits_spec at hfit
    unfold wrap32
    unfold rdown4 at *
    simp only [UTEMP, PGSIZE] at *
    omega
  have hmem : (init_stack argv o).mem =
      store32 (store32 (store32
        (writeArgs (argv_store_base argv) argv 0 (string_store_base argv)
          (fun _ => 0))
        (argv_store_base argv + 4 * (argv.length : Int)) 0)
        (argv_store_base argv - 4) (UTEMP2USTACK (argv_store_base argv)))
        (argv_store_base argv - 8) (argv.length : Int) := by
    simp [init_stack, if_neg hcheck, if_neg (not_lt.mpr halloc),
      if_neg (not_lt.mpr hmap), if_neg (not_lt.mpr hunmap)]
  have hrest : (init_stack argv o).esp =
        some (UTEMP2USTACK (argv_store_base argv - 8)) ∧
      (init_stack argv o).res = .ok () ∧
      (init_stack argv o).evs =
        [.page_alloc UTEMP (PTE_P ||| PTE_U ||| PTE_W),
         .page_map (USTACKTOP - PGSIZE) (PTE_P ||| PTE_U ||| PTE_W),
         .page_unmap UTEMP] := by
    refine ⟨?_, ?_, ?_⟩ <;>
      simp [init_stack, if_neg hcheck, if_neg (not_lt.mpr halloc),
        if_neg (not_lt.mpr hmap), if_neg (not_lt.mpr hunmap)]
  -- frames through the three trailing stores
  have hword : ∀ t : Int, argv_store_base argv ≤ t →
      t < argv_store_base argv + 4 * (argv.length : Int) →
      (init_stack argv o).mem t =
      writeArgs (argv_store_base argv) argv 0 (string_store_base argv)
        (fun _ => 0) t := by
    intro t h1 h2
    rw [hmem, store32_frame _ _ _ _ (by omega),
      store32_frame _ _ _ _ (by omega), store32_frame _ _ _ _ (by omega)]
  have hstr : ∀ t : Int, string_store_base argv ≤ t →
      (init_stack argv o).mem t =
      writeArgs (argv_store_base argv) argv 0 (string_store_base argv)
        (fun _ => 0) t := by
    intro t h1
    rw [hmem, store32_frame _ _ _ _ (by omega),
      store32_frame _ _ _ _ (by omega), store32_frame _ _ _ _ (by omega)]
  refine ⟨?_, ?_, ?_, ?_, ?_, key.2.2.2.1, hrest.1, hrest.2.1, hrest.2.2⟩
  · -- pointer-array slot k
    intro k hk
    rw [load32_congr _ _ _
      (hword _ (by omega) (by omega)) (hword _ (by omega) (by omega))
      (hword _ (by omega) (by omega)) (hword _ (by omega) (by omega))]
    have e : argv_store_base argv + 4 * (k : Int) =
        argv_store_base argv + 4 * ((0 : Int) + (k : Int)) := by ring
    rw [e, writeArgs_load _ _ _ _ _ _ (by omega) (by omega)
      (by omega) hk]
  · -- string bytes and terminators
    intro k j hk hj
    have hpk0 : 0 ≤ prefixBytes argv k := sizeBytes_nonneg _
    rw [hstr _ (by omega)]
    rw [writeArgs_str _ _ _ _ _ _ _ (by omega) hk hj]
  · -- null terminator of the pointer array
    have hread : ∀ t : Int,
        argv_store_base argv + 4 * (argv.length : Int) ≤ t →
        t < argv_store_base argv + 4 * (argv.length : Int) + 4 →
        (init_stack argv o).mem t =
        store32 (writeArgs (argv_store_base argv) argv 0
            (string_store_base argv) (fun _ => 0))
          (argv_store_base argv + 4 * (argv.length : Int)) 0 t := by
      intro t h1 h2
      rw [hmem, store32_frame _ _ _ _ (by omega),
        store32_frame _ _ _ _ (by omega)]
    rw [load32_congr _ _ _
      (hread _ (by omega) (by omega)) (hread _ (by omega) (by omega))
      (hread _ (by omega) (by omega)) (hread _ (by omega) (by omega))]
    exact load32_store32 _ _ _ (by omega) (by omega)
  · -- the translated argv pointer below the array
    have hread : ∀ t : Int, argv_store_base argv - 4 ≤ t →
        t < argv_store_base argv →
        (init_stack argv o).mem t =
        store32 (store32 (writeArgs (argv_store_base argv) argv 0
            (string_store_base argv) (fun _ => 0))
          (argv_store_base argv + 4 * (argv.length : Int)) 0)
          (argv_store_base argv - 4)
          (UTEMP2USTACK (argv_store_base argv)) t := by
      intro t h1 h2
      rw [hmem, store32_frame _ _ _ _ (by omega)]
    rw [load32_congr _ _ _
      (hread _ (by omega) (by omega)) (hread _ (by omega) (by omega))
      (hread _ (by omega) (by omega)) (hread _ (by omega) (by omega))]
    have hb := UTEMP2USTACK_bounds (argv_store_base argv) (by omega)
      (by omega)
    exact load32_store32 _ _ _ hb.1 hb.2
  · -- argc below that
    rw [hmem]
    have hlen : (argv.length : Int) < (PGSIZE : Int) := key.2.2.2.2.1
    simp only [PGSIZE] at hlen
    exact load32_store32 _ _ _ (by omega) (by omega)

/-- Witness for C7: one 4100-byte argument overflows the page (within the
wrap-free regime) and fails with `-E_NO_MEM` before any substrate call; a
fitting argv whose map-into-child fails (map result `-1`) cleans up with
the parent unmap and propagates the error. -/
theorem C7_init_stack_bounds_witness :
    ((init_stack [List.replicate 4100 65] ⟨0, 0, 0⟩).res =
        .error (-E_NO_MEM) ∧
      (init_stack [List.replicate 4100 65] ⟨0, 0, 0⟩).evs = []) ∧
    ((init_stack [[104]] ⟨0, -1, 0⟩).res = .error (-1) ∧
      (init_stack [[104]] ⟨0, -1, 0⟩).evs =
        [.page_alloc UTEMP (PTE_P ||| PTE_U ||| PTE_W),
         .page_map (USTACKTOP - PGSIZE) (PTE_P ||| PTE_U ||| PTE_W),
         .page_unmap UTEMP]) := by
  have h : sizeBytes [List.replicate 4100 65] = 4101 := by
    rw [sizeBytes, sizeBytes, List.length_replicate]
    norm_num
  constructor
  · refine (C7_init_stack_bounds [List.replicate 4100 65] ⟨0, 0, 0⟩).1
      ?_ ?_ ?_
    · rw [h]
      simp only [UTEMP, PGSIZE]
      omega
    · rw [h]
      unfold rdown4
      simp only [UTEMP, PGSIZE, List.length_singleton]
      omega
    · unfold stack_fits_spec rdown4
      rw [h]
      simp only [UTEMP, PGSIZE, List.length_singleton]
      omega
  · exact (C7_init_stack_bounds [[104]] ⟨0, -1, 0⟩).2.2.1 (by decide)
      (by decide) (by decide)

/-- Witness for C6 at `argv = ["hi"]` (bytes `[104, 105]`) with all
substrate calls succeeding: the fit check passes and `*init_esp` receives
the child-relative address of the two trailing words. -/
theorem C6_init_stack_layout_witness :
    stack_fits_spec [[104, 105]] ∧
    (init_stack [[104, 105]] ⟨0, 0, 0⟩).esp =
      some (UTEMP2USTACK (argv_store_base [[104, 105]] - 8)) ∧
    load32 (init_stack [[104, 105]] ⟨0, 0, 0⟩).mem
        (argv_store_base [[104, 105]] - 8) = 1 := by
  have h := C6_init_stack_layout [[104, 105]] ⟨0, 0, 0⟩ (by decide)
    (by decide) (by decide) (by decide)
  refine ⟨by decide, h.2.2.2.2.2.2.1, ?_⟩
  have h5 := h.2.2.2.2.1
  simpa using h5
